import Mathlib

/-!
# Verification of the food-search-api lock/unlock, import and statistics core

Shallow embedding of the week-lock / unlock-request workflow, the Excel
ingestion pipeline and the statistics aggregation of the food-search-api
repository (`src/services/database.service.js`, `src/controllers/admin.controller.js`,
`src/server.js`, `src/utils/validators.js`).

Modelling conventions:
* The SQLite tables are lists of rows, in insertion order.  `db.get` is
  `List.find?` (first match), an SQL `UPDATE ... WHERE` is a `List.map`
  touching exactly the rows matched by the `WHERE` clause, an `INSERT` is
  an append.
* The JSON-encoded `unlocked_users` column (a JSON array of user ids) is
  modelled as `List Nat` directly; `JSON.parse`/`JSON.stringify` round-trip.
* JavaScript `Date` values are modelled at millisecond precision through a
  civil-calendar day count (`civilDay`), assuming the server's local time
  zone equals UTC.  `new Date(y, m, d)` is millisecond `civilDay y (m+1) d *
  86400000`; the formula is affine in `d`, which matches JavaScript's
  day-overflow normalisation exactly.
* SQL `TEXT` columns that may hold `NULL` are modelled as `String` with
  `""` for `NULL`: JavaScript treats both `null` and `""` as falsy in
  every guard that appears in the embedded code.
* `CURRENT_TIMESTAMP` is an abstract tick passed in as a `Nat` argument.
-/

/-! ## JavaScript string primitives

Structural-recursion implementations of the string operations the embedded
code uses (`split`, `trim`, `toLowerCase`, `parseInt`, `includes`,
`join`, `padStart`), so that every definition evaluates inside the kernel.
They follow the JavaScript semantics of the corresponding methods for the
ways the code applies them (separators are non-empty strings). -/

namespace Js

/-- `leadsWith pat cs`: `cs` starts with `pat`. -/
def leadsWith : List Char → List Char → Bool
  | [], _ => true
  | _ :: _, [] => false
  | p :: ps, c :: cs => p == c && leadsWith ps cs

/-- Worker for `split`, fuelled to stay structurally recursive.  The fuel
is at least `cs.length + 1` at every call, so the `0` case is unreachable
for non-empty separators. -/
def splitGo (sep : List Char) : Nat → List Char → List Char → List (List Char)
  | _, [], acc => [acc.reverse]
  | 0, cs, acc => [acc.reverse ++ cs]
  | fuel + 1, c :: cs, acc =>
    if leadsWith sep (c :: cs) then
      acc.reverse :: splitGo sep fuel ((c :: cs).drop sep.length) []
    else
      splitGo sep fuel cs (c :: acc)

/-- JavaScript `s.split(sep)` for a non-empty string separator. -/
def split (s sep : String) : List String :=
  if sep.data.isEmpty then [s]
  else (splitGo sep.data (s.data.length + 1) s.data []).map String.mk

/-- JavaScript `s.trim()`. -/
def trim (s : String) : String :=
  String.mk (((s.data.dropWhile Char.isWhitespace).reverse.dropWhile
    Char.isWhitespace).reverse)

/-- JavaScript `s.toLowerCase()` (ASCII, which covers the embedded data). -/
def toLower (s : String) : String := String.mk (s.data.map Char.toLower)

/-- `part.charAt(0).toUpperCase() + part.slice(1)` from `extractNameFromEmail`. -/
def capitalize (s : String) : String :=
  match s.data with
  | [] => ""
  | c :: cs => String.mk (c.toUpper :: cs)

/-- Decimal digit value of a character. -/
def digitVal (c : Char) : Option Nat :=
  if c.isDigit then some (c.toNat - 48) else none

/-- Worker for `toNat`. -/
def toNatCore : List Char → Nat → Option Nat
  | [], n => some n
  | c :: cs, n =>
    match digitVal c with
    | some d => toNatCore cs (n * 10 + d)
    | none => none

/-- `parseInt` on an all-digit string (the only shape the code feeds it). -/
def toNat (s : String) : Option Nat :=
  if s.data.isEmpty then none else toNatCore s.data 0

/-- Worker for `strContains`. -/
def hasSub (pat : List Char) : List Char → Bool
  | [] => leadsWith pat []
  | c :: cs => leadsWith pat (c :: cs) || hasSub pat cs

/-- JavaScript `s.includes(pat)`. -/
def strContains (s pat : String) : Bool := hasSub pat.data s.data

/-- JavaScript `array.join(sep)`. -/
def join (sep : String) : List String → String
  | [] => ""
  | [x] => x
  | x :: y :: xs => x ++ sep ++ join sep (y :: xs)

/-- JavaScript `s.padStart(2, '0')`. -/
def padStart2 (s : String) : String :=
  String.mk (List.replicate (2 - s.data.length) '0') ++ s

/-- Worker for `words`. -/
def wordsAux : List Char → List Char → List String
  | [], acc => if acc.isEmpty then [] else [String.mk acc.reverse]
  | c :: cs, acc =>
    if c.isWhitespace then
      if acc.isEmpty then wordsAux cs []
      else String.mk acc.reverse :: wordsAux cs []
    else wordsAux cs (c :: acc)

/-- The non-empty whitespace-separated tokens of a string: JavaScript
`s.trim().split(/\s+/)` restricted to the case where the result carries
no empty tokens (for a whitespace-only `s` JavaScript yields `[""]` and
this yields `[]`; both have length `< 2`, which is all the embedded code
inspects). -/
def words (s : String) : List String := wordsAux s.data []

end Js

/-! ## Dates -/

/-- Day count of a civil date (standard `days_from_civil` algorithm,
months `1..12`).  Only the order and differences of these values matter.
The formula is affine in `d`, so out-of-range day values normalise
exactly the way JavaScript's `new Date(y, m, d)` does. -/
def civilDay (y m : Nat) (d : Int) : Int :=
  let yShift : Int := if m ≤ 2 then (y : Int) - 1 else (y : Int)
  let mp : Int := ((m : Int) + 9) % 12
  yShift * 365 + yShift / 4 - yShift / 100 + yShift / 400
    + (153 * mp + 2) / 5 + d - 1

/-- Parse an ISO `YYYY-MM-DD` string into `(year, month, day)`. -/
def parseISODate (s : String) : Option (Nat × Nat × Nat) :=
  match Js.split s "-" with
  | [ys, ms, ds] =>
    match Js.toNat ys, Js.toNat ms, Js.toNat ds with
    | some y, some mo, some d => some (y, mo, d)
    | _, _, _ => none
  | _ => none

/-- Day number denoted by a week-start-date string, as compared by
`new Date(weekStartDate)` after `setHours(0,0,0,0)`.  An unparseable
string maps to `0`; in the code an unparseable string yields `NaN`,
for which the `today < weekStart` comparison is false, matching the
model whenever `0 ≤ today`. -/
def dateValue (s : String) : Int :=
  match parseISODate s with
  | some (y, mo, d) => civilDay y mo (d : Int)
  | none => 0

/-! ## The relational store (lock/unlock subsystem) -/

/-- A row of `week_settings` (`week_start_date TEXT PRIMARY KEY,
is_locked INTEGER, unlocked_users TEXT` holding a JSON int array). -/
structure WeekSettingsRow where
  week_start_date : String
  is_locked : Bool
  unlocked_users : List Nat
  deriving DecidableEq, Repr

/-- The per-day free-text choices of one selection. -/
structure Selections where
  monday : String
  tuesday : String
  wednesday : String
  thursday : String
  friday : String
  deriving DecidableEq, Repr

/-- A row of `meal_selections` (`UNIQUE(user_id, week_start_date)`). -/
structure MealSelectionRow where
  user_id : Nat
  week_start_date : String
  sel : Selections
  is_locked : Bool
  deriving DecidableEq, Repr

/-- A row of `unlock_requests` (`status ∈ {pending, approved, rejected}`,
with a partial unique index on `(user_id, week_start_date)` restricted to
`status = 'pending'`). -/
structure UnlockRequestRow where
  id : Nat
  user_id : Nat
  week_start_date : String
  status : String
  processed_at : Option Nat
  processed_by : Option Nat
  deriving DecidableEq, Repr

/-- The part of the store the lock/unlock workflow touches.
`next_request_id` models the `AUTOINCREMENT` id source of
`unlock_requests` (`result.lastID`). -/
structure Store where
  meal_selections : List MealSelectionRow
  week_settings : List WeekSettingsRow
  unlock_requests : List UnlockRequestRow
  next_request_id : Nat
  deriving DecidableEq, Repr

/-- `getWeekSettings`: `SELECT * FROM week_settings WHERE week_start_date = ?`. -/
def getWeekSettings (db : Store) (weekStartDate : String) : Option WeekSettingsRow :=
  db.week_settings.find? (fun s => s.week_start_date == weekStartDate)

/-- `isWeekLockedForUser(weekStartDate, userId)`
(`database.service.js:1041-1064`).  `today` is the current date as a day
number (midnight-truncated, as the code resets hours). -/
def isWeekLockedForUser (today : Int) (db : Store) (weekStartDate : String)
    (userId : Nat) : Bool :=
  if today < dateValue weekStartDate then
    false
  else
    match getWeekSettings db weekStartDate with
    | none => false
    | some settings =>
      if !settings.is_locked then false
      else !(settings.unlocked_users.contains userId)

/-- `grantUserUnlock(weekStartDate, userId)` (`database.service.js:996-1015`). -/
def grantUserUnlock (db : Store) (weekStartDate : String) (userId : Nat) : Store :=
  match getWeekSettings db weekStartDate with
  | none =>
    { db with week_settings :=
        db.week_settings ++ [⟨weekStartDate, false, [userId]⟩] }
  | some settings =>
    if settings.unlocked_users.contains userId then db
    else
      -- the UPDATE writes the JSON list built from the fetched row
      { db with week_settings :=
          db.week_settings.map (fun s =>
            if s.week_start_date == weekStartDate then
              { s with unlocked_users := settings.unlocked_users ++ [userId] }
            else s) }

/-- `getMealSelection(userId, weekStartDate)`. -/
def getMealSelection (db : Store) (userId : Nat) (weekStartDate : String) :
    Option MealSelectionRow :=
  db.meal_selections.find? (fun r =>
    r.user_id == userId && r.week_start_date == weekStartDate)

/-- `isUserSelectionLocked(userId, weekStartDate)` (`database.service.js:1214-1220`). -/
def isUserSelectionLocked (db : Store) (userId : Nat) (weekStartDate : String) : Bool :=
  match getMealSelection db userId weekStartDate with
  | some r => r.is_locked
  | none => false

/-- `lockUserSelection(userId, weekStartDate)`: an unconditional
`UPDATE meal_selections SET is_locked = 1 WHERE ...`. -/
def lockUserSelection (db : Store) (userId : Nat) (weekStartDate : String) : Store :=
  { db with meal_selections :=
      db.meal_selections.map (fun r =>
        if r.user_id == userId && r.week_start_date == weekStartDate then
          { r with is_locked := true }
        else r) }

/-- `saveMealSelection(userId, weekStartDate, selections)`
(`database.service.js:513-540`): SQL upsert on `(user_id, week_start_date)`;
the conflict branch updates the five day columns and leaves `is_locked`
unchanged, the insert branch takes the `is_locked` default `0`. -/
def saveMealSelection (db : Store) (userId : Nat) (weekStartDate : String)
    (sel : Selections) : Store :=
  if db.meal_selections.any (fun r =>
      r.user_id == userId && r.week_start_date == weekStartDate) then
    { db with meal_selections :=
        db.meal_selections.map (fun r =>
          if r.user_id == userId && r.week_start_date == weekStartDate then
            { r with sel := sel }
          else r) }
  else
    { db with meal_selections :=
        db.meal_selections ++ [⟨userId, weekStartDate, sel, false⟩] }

/-- The `WHERE user_id = ? AND week_start_date = ? AND status = 'pending'`
clause used both by `createUnlockRequest` and by the pending-row count. -/
def pendingPred (userId : Nat) (weekStartDate : String) : UnlockRequestRow → Bool :=
  fun r => r.user_id == userId && r.week_start_date == weekStartDate
    && r.status == "pending"

/-- `createUnlockRequest(userId, weekStartDate)`
(`database.service.js:1076-1099`): return the existing pending request if
one exists, otherwise insert a fresh `pending` row and return it. -/
def createUnlockRequest (db : Store) (userId : Nat) (weekStartDate : String) :
    UnlockRequestRow × Store :=
  match db.unlock_requests.find? (pendingPred userId weekStartDate) with
  | some existing => (existing, db)
  | none =>
    let newReq : UnlockRequestRow :=
      ⟨db.next_request_id, userId, weekStartDate, "pending", none, none⟩
    (newReq,
      { db with
          unlock_requests := db.unlock_requests ++ [newReq],
          next_request_id := db.next_request_id + 1 })

/-- First statement of `approveUnlockRequest`:
`UPDATE meal_selections SET is_locked = 0 WHERE user_id = ? AND week_start_date = ?`. -/
def approveUnlockSelections (db : Store) (request : UnlockRequestRow) : Store :=
  { db with meal_selections :=
      db.meal_selections.map (fun r =>
        if r.user_id == request.user_id
            && r.week_start_date == request.week_start_date then
          { r with is_locked := false }
        else r) }

/-- Second step of `approveUnlockRequest`: if the week is admin-locked,
also grant the user unlock permission for the week. -/
def approveGrantIfLocked (db : Store) (request : UnlockRequestRow) : Store :=
  match getWeekSettings db request.week_start_date with
  | some settings =>
    if settings.is_locked then
      grantUserUnlock db request.week_start_date request.user_id
    else db
  | none => db

/-- Third statement of `approveUnlockRequest`:
`UPDATE unlock_requests SET status = 'approved', processed_at = CURRENT_TIMESTAMP,
processed_by = ? WHERE id = ?`. -/
def approveMarkRequest (db : Store) (requestId adminId now : Nat) : Store :=
  { db with unlock_requests :=
      db.unlock_requests.map (fun r =>
        if r.id == requestId then
          { r with status := "approved", processed_at := some now,
                   processed_by := some adminId }
        else r) }

/-- `approveUnlockRequest(requestId, adminId)`
(`database.service.js:1135-1163`): the three statements above in order.
`now` models `CURRENT_TIMESTAMP`.  Returns `none` when the request id does
not exist (the code throws `Request not found`). -/
def approveUnlockRequest (db : Store) (requestId adminId now : Nat) :
    Option Store :=
  match db.unlock_requests.find? (fun r => r.id == requestId) with
  | none => none
  | some request =>
    some (approveMarkRequest
      (approveGrantIfLocked (approveUnlockSelections db request) request)
      requestId adminId now)

/-- Number of `pending` rows of `unlock_requests` for `(userId, weekStartDate)`.
The schema's partial unique index keeps this `≤ 1`. -/
def pendingCount (db : Store) (userId : Nat) (weekStartDate : String) : Nat :=
  (db.unlock_requests.filter (pendingPred userId weekStartDate)).length

/-! ## HTTP endpoint wrappers (`server.js`) -/

/-- An endpoint response: success, or an error with HTTP status and message. -/
inductive Resp where
  | ok : Resp
  | err : Nat → String → Resp
  deriving DecidableEq, Repr

/-- `POST /api/meal-selections` (`server.js:447-483`): admin week-lock
check, then self-lock check, then the upsert. -/
def saveMealSelectionEndpoint (today : Int) (db : Store) (userId : Nat)
    (weekStartDate : String) (sel : Selections) : Store × Resp :=
  if weekStartDate == "" then
    (db, .err 400 "Week start date is required")
  else if isWeekLockedForUser today db weekStartDate userId then
    (db, .err 403 "Saptamana este blocata si nu mai pot fi facute modificari")
  else if isUserSelectionLocked db userId weekStartDate then
    (db, .err 403 "Selectia ta este blocata. Deblocheaz-o mai intai pentru a face modificari")
  else
    (saveMealSelection db userId weekStartDate sel, .ok)

/-- `POST /api/meal-selections/lock` (`server.js:1227-1248`): requires an
existing selection row, then sets its `is_locked` flag. -/
def lockMySelectionEndpoint (db : Store) (userId : Nat)
    (weekStartDate : String) : Store × Resp :=
  if weekStartDate == "" then
    (db, .err 400 "Week start date is required")
  else
    match getMealSelection db userId weekStartDate with
    | none => (db, .err 400 "Nu exista selectie pentru aceasta saptamana")
    | some _ => (lockUserSelection db userId weekStartDate, .ok)

/-- `POST /api/meal-selections/unlock` (`server.js:1254-1283`): rejected
with 403 when the week is admin-locked for the user, otherwise files (or
returns the existing) pending unlock request. -/
def unlockMySelectionEndpoint (today : Int) (db : Store) (userId : Nat)
    (weekStartDate : String) : Store × Resp :=
  if weekStartDate == "" then
    (db, .err 400 "Week start date is required")
  else if isWeekLockedForUser today db weekStartDate userId then
    (db, .err 403 "Saptamana este blocata de administrator. Nu poti solicita deblocarea.")
  else
    ((createUnlockRequest db userId weekStartDate).2, .ok)

/-! ## Week-start derivation from an uploaded filename
(`admin.controller.js:222-257`, `server.js:618-653`) -/

/-- The wall clock at upload time: a civil date plus the milliseconds
elapsed since local midnight (`new Date()`), local time = UTC.
`month0` is JavaScript's 0-based `getMonth()`. -/
structure Clock where
  year : Nat
  month0 : Nat
  day : Nat
  tod : Nat
  deriving DecidableEq, Repr

/-- Millisecond value of `new Date(y, m0, d)` (midnight).  `civilDay` is
affine in `d`, so JavaScript's day-overflow normalisation is preserved. -/
def jsDateMs (y m0 d : Nat) : Int := civilDay y (m0 + 1) (d : Int) * 86400000

/-- Millisecond value of `new Date()` at clock `t`. -/
def nowMs (t : Clock) : Int := jsDateMs t.year t.month0 t.day + (t.tod : Int)

/-- The `${targetYear}-${month}-${day}` string with `padStart(2, '0')`. -/
def mkWeekDateString (y m0 d : Nat) : String :=
  s!"{y}-{Js.padStart2 (toString (m0 + 1))}-{Js.padStart2 (toString d)}"

/-- The fallback week-start computation used when the filename carries a
period but no month/year token: keep the candidate `new Date(y, m, startDay)`
unless it compares `<` against `new Date()` (full timestamps), else roll
the month forward, December into January of the next year. -/
def computeWeekStartDateFallback (t : Clock) (startDay : Nat) : String :=
  let p : Nat × Nat :=
    if jsDateMs t.year t.month0 startDay < nowMs t then
      if t.month0 + 1 > 11 then (t.year + 1, 0) else (t.year, t.month0 + 1)
    else (t.year, t.month0)
  mkWeekDateString p.1 p.2 startDay

/-- Modelled from the spec's words for C4 only (to be compared with
`computeWeekStartDateFallback`): "the next calendar occurrence of day D at
or after today" — the candidate in the current month is kept whenever its
day-of-month has not passed yet, so a candidate falling on today's date is
kept. -/
def claimedWeekStartDateFallback (t : Clock) (startDay : Nat) : String :=
  let p : Nat × Nat :=
    if startDay < t.day then
      if t.month0 + 1 > 11 then (t.year + 1, 0) else (t.year, t.month0 + 1)
    else (t.year, t.month0)
  mkWeekDateString p.1 p.2 startDay

/-! ## Meal-options spreadsheet parsing (`admin.controller.js:259-300`) -/

/-- Per-day accumulated cell lists of one category. -/
structure DayLists where
  monday : List String
  tuesday : List String
  wednesday : List String
  thursday : List String
  friday : List String
  deriving DecidableEq, Repr

/-- Fresh accumulator installed when a category header is recognised. -/
def emptyDayLists : DayLists := ⟨[], [], [], [], []⟩

/-- `row[j]` with the `defval: ''` of `sheet_to_json`. -/
def cell (row : List String) (j : Nat) : String := row.getD j ""

/-- `row[1] !== row[2] || row[2] !== row[3] || row[3] !== row[4] || row[4] !== row[5]`. -/
def isDifferentValues (row : List String) : Bool :=
  cell row 1 != cell row 2 || cell row 2 != cell row 3
    || cell row 3 != cell row 4 || cell row 4 != cell row 5

/-- `categoryName.includes('Meniu') || ... ('Special') || ('Salat') || ('Extra')`. -/
def isCategoryKeyword (s : String) : Bool :=
  Js.strContains s "Meniu" || Js.strContains s "Special"
    || Js.strContains s "Salat" || Js.strContains s "Extra"

/-- `categoryItems[currentCategory] = { monday: [], ... }`: JavaScript
object assignment — overwrite in place when the key exists, append
otherwise. -/
def upsertCategory (items : List (String × DayLists)) (name : String) :
    List (String × DayLists) :=
  if items.any (fun p => p.1 == name) then
    items.map (fun p => if p.1 == name then (name, emptyDayLists) else p)
  else items ++ [(name, emptyDayLists)]

/-- `if (row[j] && row[j].trim()) items.dayN.push(row[j].trim())`. -/
def pushCell (acc : List String) (s : String) : List String :=
  if Js.trim s != "" then acc ++ [Js.trim s] else acc

/-- Append one content row's day cells to the current category. -/
def addToCategory (items : List (String × DayLists)) (name : String)
    (row : List String) : List (String × DayLists) :=
  items.map (fun p =>
    if p.1 == name then
      (p.1, ⟨pushCell p.2.monday (cell row 1), pushCell p.2.tuesday (cell row 2),
             pushCell p.2.wednesday (cell row 3), pushCell p.2.thursday (cell row 4),
             pushCell p.2.friday (cell row 5)⟩)
    else p)

/-- Loop state of the parsing loop: `currentCategory` and `categoryItems`. -/
structure ParseState where
  currentCategory : Option String
  categoryItems : List (String × DayLists)
  deriving DecidableEq, Repr

/-- One iteration of the parsing loop for a non-first row. -/
def parseStep (st : ParseState) (row : List String) : ParseState :=
  if cell row 1 == "" then st
  else if !(isDifferentValues row) && Js.trim (cell row 1) != "" then
    let categoryName := Js.trim (cell row 1)
    if isCategoryKeyword categoryName then
      ⟨some categoryName, upsertCategory st.categoryItems categoryName⟩
    else st
  else
    match st.currentCategory with
    | some name =>
      if Js.trim (cell row 1) != "" then
        { st with categoryItems := addToCategory st.categoryItems name row }
      else st
    | none => st

/-- The category parsing loop over the raw sheet (row 0 always skipped). -/
def parseMealOptionsRows (rows : List (List String)) : List (String × DayLists) :=
  ((rows.drop 1).foldl parseStep ⟨none, []⟩).categoryItems

/-- `items.dayN.join('\n')`: the per-day output blob of a category. -/
def dayBlob (l : List String) : String := Js.join "\n" l

/-- The cells a run of content rows contributes to day-column `j`:
trimmed day cells of rows whose Monday cell is non-blank after trimming. -/
def contribCells (body : List (List String)) (j : Nat) : List String :=
  body.filterMap (fun r =>
    if Js.trim (cell r 1) != "" && Js.trim (cell r j) != "" then
      some (Js.trim (cell r j))
    else none)

/-! ## Statistics aggregation (`server.js:750-826`) -/

/-- The five weekday identifiers. -/
inductive Day where
  | monday | tuesday | wednesday | thursday | friday
  deriving DecidableEq, Repr

/-- The iteration order `['monday', ..., 'friday']`. -/
def allDays : List Day := [.monday, .tuesday, .wednesday, .thursday, .friday]

/-- One combined selection row (registered selection or imported meal). -/
structure SelRow where
  employee_name : String
  sel : Selections
  deriving DecidableEq, Repr

/-- Project a day's cell out of a `Selections`. -/
def selDay (s : Selections) : Day → String
  | .monday => s.monday
  | .tuesday => s.tuesday
  | .wednesday => s.wednesday
  | .thursday => s.thursday
  | .friday => s.friday

/-- `selection[day]` of a combined row. -/
def dayCell (r : SelRow) (d : Day) : String := selDay r.sel d

/-- `selection[day].split(' | ').map(p => p.trim()).filter(p => p)`. -/
def cellParts (s : String) : List String :=
  ((Js.split s " | ").map Js.trim).filter (fun p => p != "")

/-- The per-day total: one count per row whose cell is truthy and parses
to a non-empty item list. -/
def dayTotal (rows : List SelRow) (d : Day) : Nat :=
  rows.countP (fun r => dayCell r d != "" && !(cellParts (dayCell r d)).isEmpty)

/-- The global per-item counter `mealCounts[part]` for one item label. -/
def mealCount (rows : List SelRow) (label : String) : Nat :=
  (allDays.map (fun d =>
    (rows.map (fun r =>
      if dayCell r d != "" then (cellParts (dayCell r d)).count label else 0)).sum)).sum

/-! ## Selection import and name reconciliation
(`server.js:655-719`, `validators.js:36-71`) -/

/-- A `users` row as the import job sees it; `employee_name = ""` models
SQL `NULL` (both are falsy in every guard of the code). -/
structure User where
  id : Nat
  email : String
  employee_name : String
  deriving DecidableEq, Repr

/-- `extractNameFromEmail` (`validators.js:36-50`): lower-cased local
part, dot-separated tokens capitalized and space-joined. -/
def extractNameFromEmail (email : String) : String :=
  if email == "" then ""
  else
    let emailLower := Js.trim (Js.toLower email)
    let localPart := (Js.split emailLower "@").getD 0 ""
    let parts := Js.split localPart "."
    Js.join " " (parts.map Js.capitalize)

/-- `reverseNameOrder` (`validators.js:57-71`): swap the first token with
the rest. -/
def reverseNameOrder (name : String) : String :=
  if name == "" then name
  else
    let parts := Js.words (Js.trim name)
    if parts.length < 2 then name
    else if parts.length == 2 then parts.getD 1 "" ++ " " ++ parts.getD 0 ""
    else Js.join " " (parts.drop 1) ++ " " ++ parts.getD 0 ""

/-- Match step (a): exact case-insensitive `employee_name` comparison. -/
def matchesEmployeeName (employeeName : String) (u : User) : Bool :=
  u.employee_name != "" && Js.toLower u.employee_name == Js.toLower employeeName

/-- Match step (b): case-insensitive comparison against the name derived
from the user's email local part. -/
def matchesEmailName (employeeName : String) (u : User) : Bool :=
  let extractedName := extractNameFromEmail u.email
  extractedName != "" && Js.toLower extractedName == Js.toLower employeeName

/-- Match step (c) as implemented: the *spreadsheet* name reversed,
compared against `employee_name`. -/
def matchesReversedName (employeeName : String) (u : User) : Bool :=
  u.employee_name != ""
    && Js.toLower u.employee_name == Js.toLower (reverseNameOrder employeeName)

/-- The three-step user matching of `importMealSelections`
(`server.js:672-692`). -/
def findMatchedUser (allUsers : List User) (employeeName : String) : Option User :=
  match allUsers.find? (matchesEmployeeName employeeName) with
  | some u => some u
  | none =>
    match allUsers.find? (matchesEmailName employeeName) with
    | some u => some u
    | none => allUsers.find? (matchesReversedName employeeName)

/-- Modelled from the spec's words for C7 only (to be compared with
`matchesReversedName`): step "(c) match against the *reversed* two-token
form of that derived name", i.e. the reversal of the email-derived name
compared against the spreadsheet name. -/
def claimedReversedEmailMatch (employeeName : String) (u : User) : Bool :=
  let reversedDerived := reverseNameOrder (extractNameFromEmail u.email)
  reversedDerived != "" && Js.toLower reversedDerived == Js.toLower employeeName

/-- What the import run writes and reports. -/
structure ImportOutcome where
  imported : Nat
  failed : Nat
  savedSelections : List (Nat × Selections)
  savedMeals : List (String × Selections)
  deriving DecidableEq, Repr

/-- The row loop of `importMealSelections` (`server.js:661-719`): row 0 is
the header; blank names are skipped; matched rows upsert the user's
`meal_selections` row, unmatched rows go to a placeholder user plus the
`meals` table.  Store writes cannot fail in the model, matching the
SQL upserts used, so `failed` stays `0`. -/
def importMealSelections (allUsers : List User) (rows : List (List String)) :
    ImportOutcome :=
  (rows.drop 1).foldl (fun acc row =>
    if Js.trim (cell row 0) == "" then acc
    else
      let employeeName := Js.trim (cell row 0)
      let sel : Selections := ⟨Js.trim (cell row 2), Js.trim (cell row 3),
        Js.trim (cell row 4), Js.trim (cell row 5), Js.trim (cell row 6)⟩
      match findMatchedUser allUsers employeeName with
      | some u =>
        { acc with imported := acc.imported + 1,
                   savedSelections := acc.savedSelections ++ [(u.id, sel)] }
      | none =>
        { acc with imported := acc.imported + 1,
                   savedMeals := acc.savedMeals ++ [(employeeName, sel)] })
    ⟨0, 0, [], []⟩

/-! ## Upload duplicate detection and the meal-options pipeline
(`admin.controller.js:159-341`, `database.service.js:750-792`) -/

/-- A row of `upload_history`. -/
structure UploadRow where
  filename : String
  file_hash : String
  upload_type : String
  period : String
  week_start_date : String
  deriving DecidableEq, Repr

/-- A row of `meal_options`. -/
structure MealOptionRow where
  week_start_date : String
  period : String
  source_file : String
  category : String
  monday : String
  tuesday : String
  wednesday : String
  thursday : String
  friday : String
  deriving DecidableEq, Repr

/-- The tables the upload pipeline touches. -/
structure UploadDB where
  upload_history : List UploadRow
  meal_options : List MealOptionRow
  deriving DecidableEq, Repr

/-- `checkUploadExists(fileHash)`: lookup by content hash. -/
def checkUploadExists (hist : List UploadRow) (fileHash : String) : Option UploadRow :=
  hist.find? (fun r => r.file_hash == fileHash)

/-- `checkPeriodExists(period, uploadType)`
(`database.service.js:760-770`): latest prior upload with the *identical*
period string and the same upload type; rows are kept in upload order, so
`ORDER BY upload_date DESC LIMIT 1` is the first match from the end. -/
def checkPeriodExists (hist : List UploadRow) (period uploadType : String) :
    Option UploadRow :=
  if period == "" then none
  else hist.reverse.find? (fun r => r.period == period && r.upload_type == uploadType)

/-- `saveMealOptions(optionsData, ...)` (`database.service.js:408-431`):
delete the week's prior rows, then insert the new ones. -/
def saveMealOptionsTable (tbl : List MealOptionRow)
    (optionsData : List MealOptionRow) : List MealOptionRow :=
  match optionsData with
  | [] => tbl
  | o :: _ => tbl.filter (fun r => r.week_start_date != o.week_start_date) ++ optionsData

/-- The responses of the meal-options upload endpoint. -/
inductive UploadResp where
  | duplicateFile : String → UploadResp
  | duplicatePeriod : String → String → UploadResp
  | emptyFile : UploadResp
  | noValidOptions : UploadResp
  | success : String → Nat → UploadResp
  deriving DecidableEq, Repr

/-- The week-start-date computation of the upload handlers
(`admin.controller.js:222-257`): prefer the filename's month/year token,
fall back to `computeWeekStartDateFallback`, and without a period use the
request body's date or today's ISO date. -/
def uploadWeekStartDate (t : Clock) (period : String)
    (monthYearInfo : Option (Nat × Nat)) (bodyWeekStartDate : String) : String :=
  if period != "" then
    let startDay := (Js.toNat ((Js.split period "-").getD 0 "")).getD 0
    match monthYearInfo with
    | some (m0, y) => mkWeekDateString y m0 startDay
    | none => computeWeekStartDateFallback t startDay
  else if bodyWeekStartDate != "" then bodyWeekStartDate
  else mkWeekDateString t.year t.month0 t.day

/-- The `mealOptionsData` array built from the parsed categories
(`admin.controller.js:289-300`). -/
def uploadParsedOptions (weekStartDate period filename : String)
    (rawData : List (List String)) : List MealOptionRow :=
  (parseMealOptionsRows rawData).map (fun p =>
    ({ week_start_date := weekStartDate, period := period, source_file := filename,
       category := p.1, monday := dayBlob p.2.monday, tuesday := dayBlob p.2.tuesday,
       wednesday := dayBlob p.2.wednesday, thursday := dayBlob p.2.thursday,
       friday := dayBlob p.2.friday } : MealOptionRow))

/-- The post-gate part of `uploadMealOptions`: empty-sheet check, week
start derivation, category parsing, and the two writes. -/
def uploadMealOptionsBody (db : UploadDB) (t : Clock) (filename fileHash : String)
    (period : String) (monthYearInfo : Option (Nat × Nat))
    (bodyWeekStartDate : String) (rawData : List (List String)) :
    UploadDB × UploadResp :=
  if rawData.length ≤ 1 then (db, .emptyFile)
  else
    let weekStartDate := uploadWeekStartDate t period monthYearInfo bodyWeekStartDate
    let mealOptionsData := uploadParsedOptions weekStartDate period filename rawData
    if mealOptionsData.isEmpty then (db, .noValidOptions)
    else
      ({ upload_history := db.upload_history ++
           [⟨filename, fileHash, "meal_options", period, weekStartDate⟩],
         meal_options := saveMealOptionsTable db.meal_options mealOptionsData },
       .success weekStartDate mealOptionsData.length)

/-- `uploadMealOptions` (`admin.controller.js:159-341`), with the filename
parsing results (`period`, `monthYearInfo` as 0-based month and year)
passed in already parsed.  Every rejection path returns the store
unchanged — the code returns before issuing any write. -/
def uploadMealOptions (db : UploadDB) (t : Clock) (filename fileHash : String)
    (period : String) (monthYearInfo : Option (Nat × Nat))
    (bodyWeekStartDate : String) (rawData : List (List String)) :
    UploadDB × UploadResp :=
  match checkUploadExists db.upload_history fileHash with
  | some existing => (db, .duplicateFile existing.filename)
  | none =>
  match (if period != "" then checkPeriodExists db.upload_history period "meal_options"
         else none) with
  | some existing => (db, .duplicatePeriod existing.filename existing.period)
  | none =>
    uploadMealOptionsBody db t filename fileHash period monthYearInfo
      bodyWeekStartDate rawData

/-- Modelled from the spec's words for C8 only (to be compared with
`checkPeriodExists`): two period tokens are "overlapping or identical"
when their day ranges intersect (identical strings compare equal even if
unparseable). -/
def periodsOverlap (p q : String) : Bool :=
  match Js.split p "-", Js.split q "-" with
  | [a, b], [c, d] =>
    match Js.toNat a, Js.toNat b, Js.toNat c, Js.toNat d with
    | some a', some b', some c', some d' => max a' c' ≤ min b' d'
    | _, _, _, _ => p == q
  | _, _ => p == q

example : civilDay 2025 6 13 - civilDay 2025 6 12 = 1 := by decide
example : civilDay 2025 3 1 - civilDay 2025 2 28 = 1 := by decide
example : civilDay 2024 3 1 - civilDay 2024 2 28 = 2 := by decide
example : civilDay 2026 1 1 - civilDay 2025 12 31 = 1 := by decide
example : dateValue "2025-06-16" - dateValue "2025-06-09" = 7 := by decide

/-! ## Helper lemmas -/

theorem find?_append_none {α} (p : α → Bool) (l₁ l₂ : List α)
    (h : l₁.find? p = none) : (l₁ ++ l₂).find? p = l₂.find? p := by
  induction l₁ with
  | nil => simp
  | cons a l ih =>
    cases hpa : p a with
    | true => simp [List.find?_cons, hpa] at h
    | false =>
      simp only [List.find?_cons, hpa] at h
      simpa [List.find?_cons, hpa] using ih h

theorem createUnlockRequest_of_find (db : Store) (u : Nat) (w : String)
    (r : UnlockRequestRow)
    (h : db.unlock_requests.find? (pendingPred u w) = some r) :
    createUnlockRequest db u w = (r, db) := by
  unfold createUnlockRequest
  rw [h]

/-- After `createUnlockRequest`, the first pending row for `(u, w)` is the
returned request. -/
theorem createUnlockRequest_find_after (db : Store) (u : Nat) (w : String) :
    ((createUnlockRequest db u w).2).unlock_requests.find? (pendingPred u w)
      = some (createUnlockRequest db u w).1 := by
  unfold createUnlockRequest
  cases hf : db.unlock_requests.find? (pendingPred u w) with
  | some r => simp [hf]
  | none =>
    simp only [hf]
    rw [find?_append_none _ _ _ hf]
    simp [List.find?_cons, pendingPred]

/-- `createUnlockRequest` leaves exactly one pending row for `(u, w)` when
the store satisfies the pending-uniqueness constraint. -/
theorem pendingCount_createUnlockRequest (db : Store) (u : Nat) (w : String)
    (h : pendingCount db u w ≤ 1) :
    pendingCount (createUnlockRequest db u w).2 u w = 1 := by
  unfold createUnlockRequest
  cases hf : db.unlock_requests.find? (pendingPred u w) with
  | some r =>
    have hmem := List.mem_of_find?_eq_some hf
    have hpr := List.find?_some hf
    have hin : r ∈ db.unlock_requests.filter (pendingPred u w) :=
      List.mem_filter.2 ⟨hmem, hpr⟩
    have hpos : 0 < (db.unlock_requests.filter (pendingPred u w)).length :=
      List.length_pos.2 (List.ne_nil_of_mem hin)
    unfold pendingCount at h ⊢
    simp only
    omega
  | none =>
    have hnil : db.unlock_requests.filter (pendingPred u w) = [] := by
      refine List.filter_eq_nil_iff.2 ?_
      intro a ha
      exact List.find?_eq_none.1 hf a ha
    unfold pendingCount
    simp [List.filter_append, hnil, pendingPred]

/-! ## Claims -/

/-- **C1**: for every week `W` and user `U`, if today is strictly before
`W`'s week-start date then `isWeekLockedForUser(W, U)` is `false`
regardless of the `WeekSettings` row for `W` (and of whether one exists);
for today at or after the week start it is `true` iff `WeekSettings`
exists with `is_locked` set and `U` not in `unlocked_users`. -/
theorem isWeekLockedForUser_spec (today : Int) (db : Store) (w : String) (u : Nat) :
    (today < dateValue w → isWeekLockedForUser today db w u = false) ∧
    (dateValue w ≤ today →
      (isWeekLockedForUser today db w u = true ↔
        ∃ s, getWeekSettings db w = some s ∧ s.is_locked = true
          ∧ u ∉ s.unlocked_users)) := by
  constructor
  · intro h
    simp [isWeekLockedForUser, h]
  · intro h
    unfold isWeekLockedForUser
    rw [if_neg (by omega)]
    cases hs : getWeekSettings db w with
    | none => simp
    | some s =>
      cases hl : s.is_locked with
      | false => simp [hl]
      | true => simp [hl, List.contains_iff_exists_mem_beq]

/-- Witness for C1 at a concrete store: a future week is unlocked, and a
started locked week is locked exactly for users outside the exemption list. -/
theorem isWeekLockedForUser_spec_witness :
    (isWeekLockedForUser (dateValue "2025-06-10")
        ⟨[], [⟨"2025-06-16", true, [5]⟩], [], 1⟩ "2025-06-16" 7 = false) ∧
    (isWeekLockedForUser (dateValue "2025-06-20")
        ⟨[], [⟨"2025-06-16", true, [5]⟩], [], 1⟩ "2025-06-16" 7 = true ↔
      ∃ s, getWeekSettings ⟨[], [⟨"2025-06-16", true, [5]⟩], [], 1⟩ "2025-06-16"
          = some s ∧ s.is_locked = true ∧ 7 ∉ s.unlocked_users) :=
  ⟨(isWeekLockedForUser_spec _ _ _ _).1 (by decide),
   (isWeekLockedForUser_spec _ _ _ _).2 (by decide)⟩

/-- **C3**: `createUnlockRequest` is idempotent per `(user, week)`: under
the schema's pending-uniqueness constraint, two successive calls return
the same request (hence the same id) and leave exactly one pending row
for `(user, week)` in storage. -/
theorem createUnlockRequest_idempotent (db : Store) (u : Nat) (w : String)
    (h : pendingCount db u w ≤ 1) :
    (createUnlockRequest ((createUnlockRequest db u w).2) u w).1.id
        = (createUnlockRequest db u w).1.id ∧
    (createUnlockRequest ((createUnlockRequest db u w).2) u w).1
        = (createUnlockRequest db u w).1 ∧
    pendingCount (createUnlockRequest ((createUnlockRequest db u w).2) u w).2 u w
        = 1 := by
  have h2 := createUnlockRequest_of_find _ u w _ (createUnlockRequest_find_after db u w)
  rw [h2]
  exact ⟨rfl, rfl, pendingCount_createUnlockRequest db u w h⟩

/-- Witness for C3 on an empty store. -/
theorem createUnlockRequest_idempotent_witness :
    (createUnlockRequest ((createUnlockRequest ⟨[], [], [], 1⟩ 4 "2025-06-16").2)
        4 "2025-06-16").1.id
      = (createUnlockRequest ⟨[], [], [], 1⟩ 4 "2025-06-16").1.id ∧
    (createUnlockRequest ((createUnlockRequest ⟨[], [], [], 1⟩ 4 "2025-06-16").2)
        4 "2025-06-16").1
      = (createUnlockRequest ⟨[], [], [], 1⟩ 4 "2025-06-16").1 ∧
    pendingCount (createUnlockRequest
        ((createUnlockRequest ⟨[], [], [], 1⟩ 4 "2025-06-16").2) 4 "2025-06-16").2
        4 "2025-06-16" = 1 :=
  createUnlockRequest_idempotent ⟨[], [], [], 1⟩ 4 "2025-06-16" (by decide)

/-- **C9**: for every `(user, week)` with no existing `MealSelection` row,
the self-lock endpoint fails with the absent-selection error and returns
the store unchanged (no row is locked or created). -/
theorem lockMySelection_noSelection (db : Store) (u : Nat) (w : String)
    (hw : w ≠ "") (h : getMealSelection db u w = none) :
    lockMySelectionEndpoint db u w
      = (db, .err 400 "Nu exista selectie pentru aceasta saptamana") := by
  unfold lockMySelectionEndpoint
  rw [if_neg (by simp [hw]), h]

/-- Witness for C9 on a store whose only selection belongs to another user. -/
theorem lockMySelection_noSelection_witness :
    lockMySelectionEndpoint
        ⟨[⟨2, "2025-06-16", ⟨"a", "b", "c", "d", "e"⟩, false⟩], [], [], 1⟩ 1 "2025-06-16"
      = (⟨[⟨2, "2025-06-16", ⟨"a", "b", "c", "d", "e"⟩, false⟩], [], [], 1⟩,
         .err 400 "Nu exista selectie pentru aceasta saptamana") :=
  lockMySelection_noSelection _ 1 "2025-06-16" (by decide) (by decide)

/-- **C10**: whenever `isWeekLockedForUser` is `false` for `(user, week)`,
the unlock endpoint succeeds and leaves exactly one pending unlock request
for `(user, week)` — with no precondition on a `MealSelection` row
existing or being self-locked (the store's selections are arbitrary). -/
theorem unlockMySelection_spec (today : Int) (db : Store) (u : Nat) (w : String)
    (hw : w ≠ "") (hlock : isWeekLockedForUser today db w u = false)
    (huniq : pendingCount db u w ≤ 1) :
    (unlockMySelectionEndpoint today db u w).2 = .ok ∧
    pendingCount (unlockMySelectionEndpoint today db u w).1 u w = 1 := by
  unfold unlockMySelectionEndpoint
  rw [if_neg (by simp [hw]), hlock]
  exact ⟨rfl, pendingCount_createUnlockRequest db u w huniq⟩

/-- Witness for C10 on a store with no selection row at all for the user. -/
theorem unlockMySelection_spec_witness :
    (unlockMySelectionEndpoint (dateValue "2025-06-20") ⟨[], [], [], 1⟩ 4
        "2025-06-16").2 = .ok ∧
    pendingCount (unlockMySelectionEndpoint (dateValue "2025-06-20")
        ⟨[], [], [], 1⟩ 4 "2025-06-16").1 4 "2025-06-16" = 1 :=
  unlockMySelection_spec (dateValue "2025-06-20") ⟨[], [], [], 1⟩ 4 "2025-06-16"
    (by decide) (by decide) (by decide)

/-! ### Helper lemmas for the approval workflow -/

theorem contains_iff_mem_nat (l : List Nat) (a : Nat) :
    l.contains a = true ↔ a ∈ l :=
  List.elem_iff

theorem grantUserUnlock_meal_selections (db : Store) (w : String) (u : Nat) :
    (grantUserUnlock db w u).meal_selections = db.meal_selections := by
  unfold grantUserUnlock
  rcases h : getWeekSettings db w with _ | s
  · rfl
  · by_cases hc : u ∈ s.unlocked_users <;> simp [hc]

theorem grantUserUnlock_unlock_requests (db : Store) (w : String) (u : Nat) :
    (grantUserUnlock db w u).unlock_requests = db.unlock_requests := by
  unfold grantUserUnlock
  rcases h : getWeekSettings db w with _ | s
  · rfl
  · by_cases hc : u ∈ s.unlocked_users <;> simp [hc]

theorem find?_week_map (l : List WeekSettingsRow) (w : String) (X : List Nat) :
    (l.map (fun s => if s.week_start_date == w then
        { s with unlocked_users := X } else s)).find?
          (fun s => s.week_start_date == w)
      = (l.find? (fun s => s.week_start_date == w)).map
          (fun s => { s with unlocked_users := X }) := by
  rw [List.find?_map]
  have hpf : ((fun s : WeekSettingsRow => s.week_start_date == w)
      ∘ (fun s => if s.week_start_date == w then
          { s with unlocked_users := X } else s))
      = (fun s : WeekSettingsRow => s.week_start_date == w) := by
    funext s
    by_cases h : s.week_start_date = w <;> simp [h]
  rw [hpf]
  cases hf : l.find? (fun s => s.week_start_date == w) with
  | none => rfl
  | some s0 =>
    have h0 : s0.week_start_date = w := by simpa using List.find?_some hf
    simp [h0]

/-- `getWeekSettings` after `grantUserUnlock` on the same week. -/
theorem getWeekSettings_grantUserUnlock (db : Store) (w : String) (u : Nat)
    (s : WeekSettingsRow) (hs : getWeekSettings db w = some s) :
    getWeekSettings (grantUserUnlock db w u) w
      = some (if s.unlocked_users.contains u then s
              else { s with unlocked_users := s.unlocked_users ++ [u] }) := by
  by_cases hc : u ∈ s.unlocked_users
  · simp [grantUserUnlock, hs, hc]
  · have hcb : s.unlocked_users.contains u = false := by simpa using hc
    have hgrant : grantUserUnlock db w u =
        { db with week_settings :=
            db.week_settings.map (fun t =>
              if t.week_start_date == w then
                { t with unlocked_users := s.unlocked_users ++ [u] }
              else t) } := by
      unfold grantUserUnlock
      rw [hs]
      simp [hcb, hc]
    rw [hgrant, if_neg (by simp [hc])]
    unfold getWeekSettings at hs ⊢
    show (db.week_settings.map (fun t =>
        if t.week_start_date == w then
          { t with unlocked_users := s.unlocked_users ++ [u] }
        else t)).find? (fun t => t.week_start_date == w)
      = some { s with unlocked_users := s.unlocked_users ++ [u] }
    rw [find?_week_map, hs]
    rfl

theorem find?_req_map (l : List UnlockRequestRow) (rid : Nat)
    (g : UnlockRequestRow → UnlockRequestRow) (hg : ∀ r, (g r).id = r.id) :
    (l.map (fun r => if r.id == rid then g r else r)).find? (fun r => r.id == rid)
      = (l.find? (fun r => r.id == rid)).map g := by
  rw [List.find?_map]
  have hpf : ((fun r : UnlockRequestRow => r.id == rid)
      ∘ (fun r => if r.id == rid then g r else r))
      = (fun r : UnlockRequestRow => r.id == rid) := by
    funext r
    by_cases h : r.id = rid <;> simp [h, hg r]
  rw [hpf]
  cases hf : l.find? (fun r => r.id == rid) with
  | none => rfl
  | some r0 =>
    have h0 : r0.id = rid := by simpa using List.find?_some hf
    simp [h0]

/-- **C2**: approving a pending unlock request for `(U, W)` clears the
`is_locked` flag of `U`'s `MealSelection` for `W`, marks the request
approved with the acting admin and timestamp, and, when `WeekSettings`
for `W` is admin-locked, appends `U` to the exemption list — so that
afterwards `isWeekLockedForUser(W, U)` is false (for every current date),
`U`'s save endpoint succeeds, `WeekSettings.is_locked` stays set, and
other users without exemptions remain locked once the week has started. -/
theorem approveUnlockRequest_spec (db : Store) (R : UnlockRequestRow)
    (rid adminId now : Nat) (sel : Selections)
    (hreq : db.unlock_requests.find? (fun r => r.id == rid) = some R)
    (_hpending : R.status = "pending") :
    ∃ db',
      approveUnlockRequest db rid adminId now = some db' ∧
      (∀ r ∈ db'.meal_selections,
        r.user_id = R.user_id → r.week_start_date = R.week_start_date →
          r.is_locked = false) ∧
      db'.unlock_requests.find? (fun r => r.id == rid)
        = some { R with status := "approved", processed_at := some now,
                        processed_by := some adminId } ∧
      (∀ s, getWeekSettings db R.week_start_date = some s → s.is_locked = true →
        ∃ s', getWeekSettings db' R.week_start_date = some s' ∧
          s'.is_locked = true ∧ R.user_id ∈ s'.unlocked_users) ∧
      (∀ today, isWeekLockedForUser today db' R.week_start_date R.user_id = false) ∧
      (∀ today, R.week_start_date ≠ "" →
        (saveMealSelectionEndpoint today db' R.user_id R.week_start_date sel).2
          = .ok) ∧
      (∀ today v s, getWeekSettings db R.week_start_date = some s →
        s.is_locked = true → v ∉ s.unlocked_users → v ≠ R.user_id →
        dateValue R.week_start_date ≤ today →
        isWeekLockedForUser today db' R.week_start_date v = true) := by
  set A : Store := approveUnlockSelections db R with hA
  set B : Store := approveGrantIfLocked A R with hB
  set C : Store := approveMarkRequest B rid adminId now with hC
  have hAms : A.meal_selections = db.meal_selections.map (fun r =>
      if r.user_id == R.user_id && r.week_start_date == R.week_start_date then
        { r with is_locked := false } else r) := rfl
  have hBms : B.meal_selections = A.meal_selections := by
    rw [hB]; unfold approveGrantIfLocked
    cases hws : getWeekSettings A R.week_start_date with
    | none => rfl
    | some s =>
      cases hl : s.is_locked
      · simp [hl]
      · simp [hl, grantUserUnlock_meal_selections]
  have hBur : B.unlock_requests = A.unlock_requests := by
    rw [hB]; unfold approveGrantIfLocked
    cases hws : getWeekSettings A R.week_start_date with
    | none => rfl
    | some s =>
      cases hl : s.is_locked
      · simp [hl]
      · simp [hl, grantUserUnlock_unlock_requests]
  -- (a) all matching selection rows end up unlocked
  have ha : ∀ r ∈ C.meal_selections, r.user_id = R.user_id →
      r.week_start_date = R.week_start_date → r.is_locked = false := by
    intro r hr hu hw
    have hr' : r ∈ db.meal_selections.map (fun r =>
        if r.user_id == R.user_id && r.week_start_date == R.week_start_date then
          { r with is_locked := false } else r) := by
      rw [← hAms, ← hBms]; exact hr
    obtain ⟨x, hx, rfl⟩ := List.mem_map.1 hr'
    by_cases hcond :
        (x.user_id == R.user_id && x.week_start_date == R.week_start_date) = true
    · simp [hcond]
    · rw [if_neg hcond] at hu hw ⊢
      exact absurd (by simp [hu, hw]) hcond
  -- (b) the request row is marked approved
  have hb : C.unlock_requests.find? (fun r => r.id == rid)
      = some { R with status := "approved", processed_at := some now,
                      processed_by := some adminId } := by
    have : C.unlock_requests = db.unlock_requests.map (fun r =>
        if r.id == rid then
          { r with status := "approved", processed_at := some now,
                   processed_by := some adminId }
        else r) := by
      rw [hC]; unfold approveMarkRequest; rw [hBur]
      rfl
    rw [this, find?_req_map db.unlock_requests rid
      (fun r => { r with status := "approved", processed_at := some now,
                         processed_by := some adminId })
      (fun r => rfl), hreq]
    rfl
  -- week-settings analysis
  have hcweek : ∀ s, getWeekSettings db R.week_start_date = some s →
      s.is_locked = true →
      getWeekSettings C R.week_start_date
        = some (if s.unlocked_users.contains R.user_id then s
                else { s with unlocked_users := s.unlocked_users ++ [R.user_id] }) := by
    intro s hs hl
    have hBeq : B = grantUserUnlock A R.week_start_date R.user_id := by
      rw [hB]; unfold approveGrantIfLocked
      rw [show getWeekSettings A R.week_start_date = some s from hs]
      simp [hl]
    have : getWeekSettings C R.week_start_date
        = getWeekSettings B R.week_start_date := rfl
    rw [this, hBeq]
    exact getWeekSettings_grantUserUnlock A _ _ s
      (show getWeekSettings A R.week_start_date = some s from hs)
  have hwnone : getWeekSettings db R.week_start_date = none →
      getWeekSettings C R.week_start_date = none := by
    intro hs
    have hBeq : B = A := by
      rw [hB]; unfold approveGrantIfLocked
      rw [show getWeekSettings A R.week_start_date = none from hs]
    have : getWeekSettings C R.week_start_date
        = getWeekSettings B R.week_start_date := rfl
    rw [this, hBeq]
    exact hs
  have hwunlocked : ∀ s, getWeekSettings db R.week_start_date = some s →
      s.is_locked = false → getWeekSettings C R.week_start_date = some s := by
    intro s hs hl
    have hBeq : B = A := by
      rw [hB]; unfold approveGrantIfLocked
      rw [show getWeekSettings A R.week_start_date = some s from hs]
      simp [hl]
    have : getWeekSettings C R.week_start_date
        = getWeekSettings B R.week_start_date := rfl
    rw [this, hBeq]
    exact hs
  -- (c) exemption granted when admin-locked
  have hc' : ∀ s, getWeekSettings db R.week_start_date = some s →
      s.is_locked = true →
      ∃ s', getWeekSettings C R.week_start_date = some s' ∧
        s'.is_locked = true ∧ R.user_id ∈ s'.unlocked_users := by
    intro s hs hl
    refine ⟨_, hcweek s hs hl, ?_, ?_⟩
    · by_cases hm : R.user_id ∈ s.unlocked_users <;> simp [hm, hl]
    · by_cases hm : R.user_id ∈ s.unlocked_users <;> simp [hm]
  -- (d) week unlocked for the requester
  have hd : ∀ today,
      isWeekLockedForUser today C R.week_start_date R.user_id = false := by
    intro today
    unfold isWeekLockedForUser
    by_cases ht : today < dateValue R.week_start_date
    · simp [ht]
    · rw [if_neg ht]
      rcases hs : getWeekSettings db R.week_start_date with _ | s
      · simp [hwnone hs]
      · cases hl : s.is_locked
        · simp [hwunlocked s hs hl, hl]
        · by_cases hm : R.user_id ∈ s.unlocked_users
          · simp [hcweek s hs hl, hm, hl]
          · simp [hcweek s hs hl, hm, hl]
  -- (e) the requester's save goes through
  have he : ∀ today, R.week_start_date ≠ "" →
      (saveMealSelectionEndpoint today C R.user_id R.week_start_date sel).2
        = .ok := by
    intro today hw
    have hlockedu : isUserSelectionLocked C R.user_id R.week_start_date = false := by
      unfold isUserSelectionLocked getMealSelection
      rcases hfind : C.meal_selections.find? (fun r =>
          r.user_id == R.user_id && r.week_start_date == R.week_start_date)
        with _ | r
      · simp only [hfind]
      · have hmem := List.mem_of_find?_eq_some hfind
        have hp := List.find?_some hfind
        have hp' : r.user_id = R.user_id ∧ r.week_start_date = R.week_start_date := by
          simpa using hp
        simp only [hfind]
        exact ha r hmem hp'.1 hp'.2
    unfold saveMealSelectionEndpoint
    rw [if_neg (by simp [hw])]
    simp [hd today, hlockedu]
  -- (f) other non-exempt users stay locked
  have hstay : ∀ today v s, getWeekSettings db R.week_start_date = some s →
      s.is_locked = true → v ∉ s.unlocked_users → v ≠ R.user_id →
      dateValue R.week_start_date ≤ today →
      isWeekLockedForUser today C R.week_start_date v = true := by
    intro today v s hs hl hv hne ht
    unfold isWeekLockedForUser
    rw [if_neg (by omega)]
    by_cases hm : R.user_id ∈ s.unlocked_users
    · simp [hcweek s hs hl, hm, hl, hv]
    · simp [hcweek s hs hl, hm, hl, hv, hne]
  exact ⟨C, by unfold approveUnlockRequest; rw [hreq], ha, hb, hc', hd, he, hstay⟩

/-- Witness for C2: a store with one locked selection, an admin-locked
week, and one pending request, approved by admin `2` at tick `77`. -/
theorem approveUnlockRequest_spec_witness :
    ∃ db',
      approveUnlockRequest
        (⟨[⟨4, "2025-06-16", ⟨"a", "b", "c", "d", "e"⟩, true⟩],
          [⟨"2025-06-16", true, []⟩],
          [⟨9, 4, "2025-06-16", "pending", none, none⟩], 10⟩ : Store)
        9 2 77 = some db' ∧
      (∀ r ∈ db'.meal_selections, r.user_id = 4 →
        r.week_start_date = "2025-06-16" → r.is_locked = false) ∧
      db'.unlock_requests.find? (fun r => r.id == 9)
        = some ⟨9, 4, "2025-06-16", "approved", some 77, some 2⟩ ∧
      (∀ s, getWeekSettings
          (⟨[⟨4, "2025-06-16", ⟨"a", "b", "c", "d", "e"⟩, true⟩],
            [⟨"2025-06-16", true, []⟩],
            [⟨9, 4, "2025-06-16", "pending", none, none⟩], 10⟩ : Store)
          "2025-06-16" = some s → s.is_locked = true →
        ∃ s', getWeekSettings db' "2025-06-16" = some s' ∧
          s'.is_locked = true ∧ 4 ∈ s'.unlocked_users) ∧
      (∀ today, isWeekLockedForUser today db' "2025-06-16" 4 = false) ∧
      (∀ today, ("2025-06-16" : String) ≠ "" →
        (saveMealSelectionEndpoint today db' 4 "2025-06-16"
          ⟨"x", "", "", "", ""⟩).2 = .ok) ∧
      (∀ today v s, getWeekSettings
          (⟨[⟨4, "2025-06-16", ⟨"a", "b", "c", "d", "e"⟩, true⟩],
            [⟨"2025-06-16", true, []⟩],
            [⟨9, 4, "2025-06-16", "pending", none, none⟩], 10⟩ : Store)
          "2025-06-16" = some s → s.is_locked = true →
        v ∉ s.unlocked_users → v ≠ 4 → dateValue "2025-06-16" ≤ today →
        isWeekLockedForUser today db' "2025-06-16" v = true) :=
  approveUnlockRequest_spec
    (⟨[⟨4, "2025-06-16", ⟨"a", "b", "c", "d", "e"⟩, true⟩],
      [⟨"2025-06-16", true, []⟩],
      [⟨9, 4, "2025-06-16", "pending", none, none⟩], 10⟩ : Store)
    ⟨9, 4, "2025-06-16", "pending", none, none⟩ 9 2 77
    ⟨"x", "", "", "", ""⟩ (by decide) rfl

/-- **C4 counterexample**: on 2025-06-13 at 10:00 (clock month0 = 5,
tod = 36000000 ms), a parsed period starting at day 13 with no month/year
token yields week start `2025-07-13`: the candidate `new Date(2025, 5, 13)`
(midnight) compares `<` against `new Date()` and the month rolls forward,
although the next calendar occurrence of day 13 at or after today is today
itself, `2025-06-13` — which is what the claim-side definition computes.
The claim as stated is therefore false at this input. -/
theorem computeWeekStartDateFallback_cex :
    computeWeekStartDateFallback ⟨2025, 5, 13, 36000000⟩ 13 = "2025-07-13" ∧
    claimedWeekStartDateFallback ⟨2025, 5, 13, 36000000⟩ 13 = "2025-06-13" ∧
    ("2025-07-13" : String) ≠ "2025-06-13" :=
  ⟨by decide, by decide, by decide⟩

/-- **C4 (amended)**: with no month/year token, the computed
week-start-date string has day-of-month `D` and keeps today's month/year
iff midnight of day `D` in the current month is not strictly before the
current instant (so a candidate on today's date is kept only when the
upload happens exactly at midnight); otherwise the month rolls forward by
one, December rolling into January of the next year. -/
theorem computeWeekStartDateFallback_spec (t : Clock) (startDay : Nat) :
    (nowMs t ≤ jsDateMs t.year t.month0 startDay →
      computeWeekStartDateFallback t startDay
        = mkWeekDateString t.year t.month0 startDay) ∧
    (jsDateMs t.year t.month0 startDay < nowMs t →
      computeWeekStartDateFallback t startDay
        = if t.month0 + 1 > 11 then mkWeekDateString (t.year + 1) 0 startDay
          else mkWeekDateString t.year (t.month0 + 1) startDay) := by
  constructor
  · intro h
    unfold computeWeekStartDateFallback
    rw [if_neg (by omega)]
  · intro h
    unfold computeWeekStartDateFallback
    rw [if_pos h]
    by_cases hm : t.month0 + 1 > 11
    · rw [if_pos hm, if_pos hm]
    · rw [if_neg hm, if_neg hm]

/-- Witness for C4 (amended): a kept candidate (June 20 seen on June 13)
and a December roll-over (day 13 seen on December 20). -/
theorem computeWeekStartDateFallback_spec_witness :
    computeWeekStartDateFallback ⟨2025, 5, 13, 36000000⟩ 20
        = mkWeekDateString 2025 5 20 ∧
    computeWeekStartDateFallback ⟨2025, 11, 20, 500⟩ 13
        = (if 11 + 1 > 11 then mkWeekDateString (2025 + 1) 0 13
           else mkWeekDateString 2025 (11 + 1) 13) :=
  ⟨(computeWeekStartDateFallback_spec ⟨2025, 5, 13, 36000000⟩ 20).1 (by decide),
   (computeWeekStartDateFallback_spec ⟨2025, 11, 20, 500⟩ 13).2 (by decide)⟩

/-- **C6 counterexample**: a cell consisting of a lone delimiter is
non-empty after trimming, yet its row adds 0 to the day total (every
`' | '`-separated segment trims to empty, so `parts` is empty). -/
theorem getStatistics_cex :
    Js.trim " | " ≠ "" ∧
    dayTotal [⟨"E", ⟨" | ", "", "", "", ""⟩⟩] .monday = 0 :=
  ⟨by decide, by decide⟩

theorem filter_map_trim_isEmpty (l : List String) :
    (!((l.map Js.trim).filter (fun p => p != "")).isEmpty)
      = l.any (fun p => Js.trim p != "") := by
  induction l with
  | nil => rfl
  | cons a l ih =>
    by_cases h : Js.trim a = ""
    · simp [List.filter_cons, List.any_cons, h, ih]
    · simp [List.filter_cons, List.any_cons, h]

/-- **C6 (amended)**: in the statistics aggregation, a day's total counts
exactly 1 per row whose cell contains at least one `' | '`-separated
segment that is non-blank after trimming (non-empty after trimming alone
is not sufficient), while each item label increments its own counter once
per occurrence; on the spec's concrete example — selections
`"Meniu 1 | Salata"` and `"Meniu 1"` on Monday — the Monday total is 2,
"Meniu 1" counts 2 and "Salata" counts 1. -/
theorem getStatistics_spec (rows : List SelRow) (d : Day) :
    dayTotal rows d
      = rows.countP (fun r =>
          (Js.split (dayCell r d) " | ").any (fun p => Js.trim p != "")) ∧
    dayTotal [⟨"A", ⟨"Meniu 1 | Salata", "", "", "", ""⟩⟩,
              ⟨"B", ⟨"Meniu 1", "", "", "", ""⟩⟩] .monday = 2 ∧
    mealCount [⟨"A", ⟨"Meniu 1 | Salata", "", "", "", ""⟩⟩,
               ⟨"B", ⟨"Meniu 1", "", "", "", ""⟩⟩] "Meniu 1" = 2 ∧
    mealCount [⟨"A", ⟨"Meniu 1 | Salata", "", "", "", ""⟩⟩,
               ⟨"B", ⟨"Meniu 1", "", "", "", ""⟩⟩] "Salata" = 1 := by
  refine ⟨?_, by decide, by decide, by decide⟩
  unfold dayTotal
  apply List.countP_congr
  intro r _
  have hb : (dayCell r d != "" && !(cellParts (dayCell r d)).isEmpty)
      = (Js.split (dayCell r d) " | ").any (fun p => Js.trim p != "") := by
    generalize dayCell r d = s
    by_cases h : s = ""
    · subst h; decide
    · have hne : (s != "") = true := by simpa using h
      unfold cellParts
      rw [hne, Bool.true_and, filter_map_trim_isEmpty]
  rw [hb]

/-- **C7 counterexample**: a user whose `employee_name` is NULL but whose
email-derived name is "Alexandru Popescu".  Per the claim's step (c) — the
reversed derived email name "Popescu Alexandru" matches the spreadsheet
name — the row should attach to this user, but the implementation reverses
the *spreadsheet* name and compares it against `employee_name`, so no user
matches and the row goes to a placeholder instead. -/
theorem importNameMatching_cex :
    claimedReversedEmailMatch "Popescu Alexandru"
        ⟨1, "alexandru.popescu@devhub.tech", ""⟩ = true ∧
    findMatchedUser [⟨1, "alexandru.popescu@devhub.tech", ""⟩]
        "Popescu Alexandru" = none :=
  ⟨by decide, by decide⟩

/-- **C7 (amended)**: row names are matched in order (a) case-insensitive
`employee_name`, (b) case-insensitive email-derived name, (c) the
*spreadsheet* name reversed against `employee_name`; a match implies one
of the three predicates holds for a user in the list, no match means all
three fail for every user; and the 3-row scenario attaches row 2
("Popescu Alexandru" against a user whose `employee_name` — equal to the
email-derived name — is "Alexandru Popescu") to that user, reporting
`imported = 3`, `failed = 0`. -/
theorem importNameMatching_spec :
    (∀ (users : List User) (name : String) (u : User),
      findMatchedUser users name = some u →
        u ∈ users ∧ (matchesEmployeeName name u = true
          ∨ matchesEmailName name u = true
          ∨ matchesReversedName name u = true)) ∧
    (∀ (users : List User) (name : String),
      (∀ u ∈ users, matchesEmployeeName name u = false
        ∧ matchesEmailName name u = false ∧ matchesReversedName name u = false) →
      findMatchedUser users name = none) ∧
    importMealSelections [⟨1, "alexandru.popescu@devhub.tech", "Alexandru Popescu"⟩]
      [["Nume", "Divizie", "Luni", "Marti", "Miercuri", "Joi", "Vineri"],
       ["Ion Georgescu", "IT", "Meniu 1", "", "", "", ""],
       ["Popescu Alexandru", "IT", "Meniu 2", "Salata", "", "", ""],
       ["Maria Ionescu", "HR", "Meniu 3", "", "", "", ""]]
      = ⟨3, 0, [(1, ⟨"Meniu 2", "Salata", "", "", ""⟩)],
         [("Ion Georgescu", ⟨"Meniu 1", "", "", "", ""⟩),
          ("Maria Ionescu", ⟨"Meniu 3", "", "", "", ""⟩)]⟩ := by
  refine ⟨?_, ?_, by decide⟩
  · intro users name u h
    unfold findMatchedUser at h
    rcases h1 : users.find? (matchesEmployeeName name) with _ | u1
    · simp only [h1] at h
      rcases h2 : users.find? (matchesEmailName name) with _ | u2
      · simp only [h2] at h
        exact ⟨List.mem_of_find?_eq_some h,
          Or.inr (Or.inr (List.find?_some h))⟩
      · simp only [h2, Option.some.injEq] at h
        subst h
        exact ⟨List.mem_of_find?_eq_some h2,
          Or.inr (Or.inl (List.find?_some h2))⟩
    · simp only [h1, Option.some.injEq] at h
      subst h
      exact ⟨List.mem_of_find?_eq_some h1, Or.inl (List.find?_some h1)⟩
  · intro users name hnone
    unfold findMatchedUser
    have e1 : users.find? (matchesEmployeeName name) = none :=
      List.find?_eq_none.2 (fun u hu => by simp [(hnone u hu).1])
    have e2 : users.find? (matchesEmailName name) = none :=
      List.find?_eq_none.2 (fun u hu => by simp [(hnone u hu).2.1])
    have e3 : users.find? (matchesReversedName name) = none :=
      List.find?_eq_none.2 (fun u hu => by simp [(hnone u hu).2.2])
    simp only [e1, e2, e3]

/-- Witness for C7 (amended): the matcher finds the user by the reversed
spreadsheet name, and the soundness conjunct applies to it. -/
theorem importNameMatching_spec_witness :
    ((⟨1, "alexandru.popescu@devhub.tech", "Alexandru Popescu"⟩ : User)
        ∈ [(⟨1, "alexandru.popescu@devhub.tech", "Alexandru Popescu"⟩ : User)] ∧
      (matchesEmployeeName "Popescu Alexandru"
          ⟨1, "alexandru.popescu@devhub.tech", "Alexandru Popescu"⟩ = true
        ∨ matchesEmailName "Popescu Alexandru"
          ⟨1, "alexandru.popescu@devhub.tech", "Alexandru Popescu"⟩ = true
        ∨ matchesReversedName "Popescu Alexandru"
          ⟨1, "alexandru.popescu@devhub.tech", "Alexandru Popescu"⟩ = true)) ∧
    findMatchedUser [] "Popescu Alexandru" = none :=
  ⟨importNameMatching_spec.1
      [⟨1, "alexandru.popescu@devhub.tech", "Alexandru Popescu"⟩]
      "Popescu Alexandru"
      ⟨1, "alexandru.popescu@devhub.tech", "Alexandru Popescu"⟩ (by decide),
   importNameMatching_spec.2.1 [] "Popescu Alexandru" (by intro u hu; cases hu)⟩

/-! ### Helper lemmas for the category parsing loop -/

theorem pushCell_contrib (dl : List String) (r : List String)
    (body : List (List String)) (j : Nat) (h1 : Js.trim (cell r 1) ≠ "") :
    pushCell dl (cell r j) ++ contribCells body j
      = dl ++ contribCells (r :: body) j := by
  unfold pushCell contribCells
  rw [List.filterMap_cons]
  by_cases hj : Js.trim (cell r j) = ""
  · simp [hj, h1]
  · simp [hj, h1]

/-- A run of content rows (all with five non-identical day cells) under an
open category accumulates exactly the per-day contributions. -/
theorem parseBody (body : List (List String)) (name : String) :
    ∀ dl : DayLists, (∀ r ∈ body, isDifferentValues r = true) →
    body.foldl parseStep ⟨some name, [(name, dl)]⟩
      = ⟨some name, [(name, ⟨dl.monday ++ contribCells body 1,
          dl.tuesday ++ contribCells body 2, dl.wednesday ++ contribCells body 3,
          dl.thursday ++ contribCells body 4, dl.friday ++ contribCells body 5⟩)]⟩ := by
  induction body with
  | nil =>
    intro dl _
    simp [contribCells]
  | cons r body ih =>
    intro dl hdiff
    have hdr : isDifferentValues r = true := hdiff r (List.mem_cons_self _ _)
    have hdbody : ∀ x ∈ body, isDifferentValues x = true :=
      fun x hx => hdiff x (List.mem_cons_of_mem _ hx)
    rw [List.foldl_cons]
    by_cases h2 : Js.trim (cell r 1) = ""
    · have hstep : parseStep ⟨some name, [(name, dl)]⟩ r
          = ⟨some name, [(name, dl)]⟩ := by
        unfold parseStep
        by_cases h1 : cell r 1 = ""
        · rw [if_pos (by simp [h1])]
        · rw [if_neg (by simp [h1]), if_neg (by simp [hdr])]
          simp [h2]
      rw [hstep, ih dl hdbody]
      have hskip : ∀ j, contribCells (r :: body) j = contribCells body j := by
        intro j
        unfold contribCells
        rw [List.filterMap_cons]
        simp [h2]
      simp [hskip]
    · have h1 : cell r 1 ≠ "" := by
        intro hc
        exact h2 (by rw [hc]; rfl)
      have hstep : parseStep ⟨some name, [(name, dl)]⟩ r
          = ⟨some name, [(name,
              ⟨pushCell dl.monday (cell r 1), pushCell dl.tuesday (cell r 2),
               pushCell dl.wednesday (cell r 3), pushCell dl.thursday (cell r 4),
               pushCell dl.friday (cell r 5)⟩)]⟩ := by
        unfold parseStep
        rw [if_neg (by simp [h1]), if_neg (by simp [hdr])]
        simp [h2, addToCategory]
      rw [hstep, ih _ hdbody]
      simp only [pushCell_contrib _ r body _ h2]

/-- **C5 counterexample**: after the header row "Meniu 1" (five identical
cells containing a keyword), the next row has all five cells equal to
"X" — a non-empty non-header row by the claim's rule (it contains no
keyword) — yet it contributes nothing: the category's Monday list stays
empty and its blob is `""`, not `"X"`.  The claim's "every subsequent
non-empty row until the next header contributes its five day-cells" is
false at this input. -/
theorem uploadMealOptions_parsing_cex :
    parseMealOptionsRows
        [[], ["", "Meniu 1", "Meniu 1", "Meniu 1", "Meniu 1", "Meniu 1"],
         ["", "X", "X", "X", "X", "X"]]
      = [("Meniu 1", ⟨[], [], [], [], []⟩)] ∧
    Js.trim (cell ["", "X", "X", "X", "X", "X"] 1) ≠ "" ∧
    isCategoryKeyword "X" = false ∧
    dayBlob [] = "" ∧ ("" : String) ≠ "X" :=
  ⟨by decide, by decide, by decide, rfl, by decide⟩

/-- **C5 (amended)**: a non-first row with non-empty Monday cell whose
five weekday cells are pairwise equal, non-blank after trimming, and
contain one of the keywords "Meniu"/"Special"/"Salat"/"Extra" opens a
category; pairwise-equal rows without a keyword are skipped entirely;
every subsequent row whose five cells are NOT all identical contributes
its non-blank trimmed day cells to the open category, whose per-day output
is the accumulated cell list (joined with newlines in the output blob). -/
theorem uploadMealOptions_parsing_spec (r0 hdr : List String)
    (body : List (List String)) (v : String)
    (he1 : cell hdr 1 = v) (he2 : cell hdr 2 = v) (he3 : cell hdr 3 = v)
    (he4 : cell hdr 4 = v) (he5 : cell hdr 5 = v)
    (htrim : Js.trim v ≠ "") (hkey : isCategoryKeyword (Js.trim v) = true)
    (hdiff : ∀ r ∈ body, isDifferentValues r = true) :
    parseMealOptionsRows (r0 :: hdr :: body)
      = [(Js.trim v, ⟨contribCells body 1, contribCells body 2,
          contribCells body 3, contribCells body 4, contribCells body 5⟩)] := by
  unfold parseMealOptionsRows
  have hdrop : (r0 :: hdr :: body).drop 1 = hdr :: body := rfl
  rw [hdrop, List.foldl_cons]
  have hne : cell hdr 1 ≠ "" := by
    intro hc
    apply htrim
    rw [← he1, hc]
    rfl
  have hdiffh : isDifferentValues hdr = false := by
    unfold isDifferentValues
    rw [he1, he2, he3, he4, he5]
    simp
  have hstep : parseStep ⟨none, []⟩ hdr
      = ⟨some (Js.trim v), [(Js.trim v, emptyDayLists)]⟩ := by
    unfold parseStep
    rw [if_neg (by simp [hne]), he1]
    simp [hdiffh, htrim, hkey, upsertCategory]
  rw [hstep, parseBody body (Js.trim v) emptyDayLists hdiff]
  simp [emptyDayLists]

/-- Witness for C5 (amended): a one-header, one-content-row sheet. -/
theorem uploadMealOptions_parsing_spec_witness :
    parseMealOptionsRows
        [[], ["", "Meniu 1", "Meniu 1", "Meniu 1", "Meniu 1", "Meniu 1"],
         ["", "Pui", "Vita", "Peste", "Porc", "Miel"]]
      = [("Meniu 1", ⟨["Pui"], ["Vita"], ["Peste"], ["Porc"], ["Miel"]⟩)] :=
  uploadMealOptions_parsing_spec []
    ["", "Meniu 1", "Meniu 1", "Meniu 1", "Meniu 1", "Meniu 1"]
    [["", "Pui", "Vita", "Peste", "Porc", "Miel"]] "Meniu 1"
    rfl rfl rfl rfl rfl (by decide) (by decide) (by decide)

/-! ### Helper lemma for the upload gate -/

/-- The post-gate pipeline never answers with the duplicate-period
rejection. -/
theorem uploadMealOptionsBody_resp (db : UploadDB) (t : Clock)
    (filename fileHash period : String) (myi : Option (Nat × Nat))
    (bodyW : String) (rawData : List (List String)) (f p : String) :
    (uploadMealOptionsBody db t filename fileHash period myi bodyW rawData).2
      ≠ .duplicatePeriod f p := by
  unfold uploadMealOptionsBody
  by_cases hlen : rawData.length ≤ 1
  · simp [hlen]
  · rw [if_neg hlen]
    by_cases hemp : (uploadParsedOptions
        (uploadWeekStartDate t period myi bodyW) period filename rawData).isEmpty
    · simp [hemp]
    · simp [hemp]

/-- **C8 (amended)**: with no content-hash duplicate, the upload is
rejected with the duplicate-period error exactly when some prior upload
of the same upload type declares the *identical* period string (the
comparison is string equality, not day-range overlap), regardless of the
file contents; on this rejection the store is returned unchanged, so no
meal-option or upload-history rows are written. -/
theorem uploadDuplicatePeriod_spec (db : UploadDB) (t : Clock)
    (filename fileHash period : String) (myi : Option (Nat × Nat))
    (bodyW : String) (rawData : List (List String)) :
    (∀ orig, checkUploadExists db.upload_history fileHash = none →
      checkPeriodExists db.upload_history period "meal_options" = some orig →
      uploadMealOptions db t filename fileHash period myi bodyW rawData
        = (db, .duplicatePeriod orig.filename orig.period)) ∧
    (∀ f p, (uploadMealOptions db t filename fileHash period myi bodyW rawData).2
        = .duplicatePeriod f p →
      ∃ orig ∈ db.upload_history, orig.filename = f ∧ orig.period = p
        ∧ orig.period = period ∧ orig.upload_type = "meal_options") := by
  constructor
  · intro orig hhash hper
    have hpne : period ≠ "" := by
      intro h
      rw [h] at hper
      simp [checkPeriodExists] at hper
    have hif : (if period != "" then
        checkPeriodExists db.upload_history period "meal_options" else none)
        = some orig := by
      rw [if_pos (by simp [hpne])]
      exact hper
    unfold uploadMealOptions
    simp only [hhash, hif]
  · intro f p hresp
    unfold uploadMealOptions at hresp
    rcases hhash : checkUploadExists db.upload_history fileHash with _ | e
    · simp only [hhash] at hresp
      rcases hper : (if period != "" then
          checkPeriodExists db.upload_history period "meal_options" else none)
        with _ | orig
      · simp only [hper] at hresp
        exact absurd hresp
          (uploadMealOptionsBody_resp db t filename fileHash period myi bodyW
            rawData f p)
      · simp only [hper] at hresp
        have hfp : orig.filename = f ∧ orig.period = p := by
          simpa using hresp
        have hpne : period ≠ "" := by
          intro h
          rw [h] at hper
          simp at hper
        rw [if_pos (by simp [hpne])] at hper
        unfold checkPeriodExists at hper
        rw [if_neg (by simp [hpne])] at hper
        have hmem : orig ∈ db.upload_history.reverse :=
          List.mem_of_find?_eq_some hper
        have hpred := List.find?_some hper
        have hp' : orig.period = period ∧ orig.upload_type = "meal_options" := by
          simpa using hpred
        exact ⟨orig, List.mem_reverse.1 hmem, hfp.1, hfp.2, hp'.1, hp'.2⟩
    · simp only [hhash] at hresp
      simp at hresp

/-- Witness for C8 (amended): re-uploading period "13-17" under a new
name with different contents (hash `h2` vs `h1`) is rejected with the
original upload's details and the store is unchanged. -/
theorem uploadDuplicatePeriod_spec_witness :
    uploadMealOptions
        ⟨[⟨"FOOD 13-17.xlsx", "h1", "meal_options", "13-17", "2025-10-13"⟩], []⟩
        ⟨2025, 9, 1, 0⟩ "FOOD 13-17 v2.xlsx" "h2" "13-17" (some (9, 2025)) ""
        [[], ["", "Meniu 1", "Meniu 1", "Meniu 1", "Meniu 1", "Meniu 1"],
         ["", "Pui", "Vita", "Peste", "Porc", "Miel"]]
      = (⟨[⟨"FOOD 13-17.xlsx", "h1", "meal_options", "13-17", "2025-10-13"⟩], []⟩,
         .duplicatePeriod "FOOD 13-17.xlsx" "13-17") :=
  (uploadDuplicatePeriod_spec
      ⟨[⟨"FOOD 13-17.xlsx", "h1", "meal_options", "13-17", "2025-10-13"⟩], []⟩
      ⟨2025, 9, 1, 0⟩ "FOOD 13-17 v2.xlsx" "h2" "13-17" (some (9, 2025)) ""
      [[], ["", "Meniu 1", "Meniu 1", "Meniu 1", "Meniu 1", "Meniu 1"],
       ["", "Pui", "Vita", "Peste", "Porc", "Miel"]]).1
    ⟨"FOOD 13-17.xlsx", "h1", "meal_options", "13-17", "2025-10-13"⟩
    (by decide) (by decide)

/-- **C8 counterexample**: the prior upload declared period "13-17"; a new
file with the *overlapping* (but not identical) period "14-18" and fresh
contents passes the gate, succeeds, and writes both upload-history and
meal-option rows — the claim's "overlapping ... period" rejection does not
exist in the code, which compares period strings for equality only. -/
theorem uploadDuplicatePeriod_cex :
    periodsOverlap "13-17" "14-18" = true ∧
    ("13-17" : String) ≠ "14-18" ∧
    (uploadMealOptions
        ⟨[⟨"FOOD 13-17.xlsx", "h1", "meal_options", "13-17", "2025-10-13"⟩], []⟩
        ⟨2025, 9, 1, 0⟩ "FOOD 14-18.xlsx" "h2" "14-18" (some (9, 2025)) ""
        [[], ["", "Meniu 1", "Meniu 1", "Meniu 1", "Meniu 1", "Meniu 1"],
         ["", "Pui", "Vita", "Peste", "Porc", "Miel"]]).2
      = .success "2025-10-14" 1 ∧
    (uploadMealOptions
        ⟨[⟨"FOOD 13-17.xlsx", "h1", "meal_options", "13-17", "2025-10-13"⟩], []⟩
        ⟨2025, 9, 1, 0⟩ "FOOD 14-18.xlsx" "h2" "14-18" (some (9, 2025)) ""
        [[], ["", "Meniu 1", "Meniu 1", "Meniu 1", "Meniu 1", "Meniu 1"],
         ["", "Pui", "Vita", "Peste", "Porc", "Miel"]]).1.upload_history.length
      = 2 :=
  ⟨by decide, by decide, by decide, by decide⟩
